import Mathlib

/-!
A verification development for the `hash_parity` regression harness.

The harness discovers compressed simfile fixtures, resolves a content-addressed
golden baseline for each, recomputes chart hashes with the engine under test,
and compares the grouped hash sequences.  External effects (file system reads,
zstd decompression, md5, JSON parsing, the hashing engine) appear as fields of
an explicit environment; all control flow and the comparison algorithm are
translated directly from `src/hash_parity.rs`.
-/

namespace HashParity

/-- Byte sequences (the content of files) are modelled as lists of naturals. -/
abbrev ByteSeq := List Nat

/-- ASCII lowercasing of a single character, as Rust's `to_ascii_lowercase`. -/
def asciiLowerChar (c : Char) : Char :=
  if 65 ≤ c.toNat ∧ c.toNat ≤ 90 then Char.ofNat (c.toNat + 32) else c

/-- ASCII lowercasing of a string, as Rust's `str::to_ascii_lowercase`. -/
def asciiLower (s : String) : String := String.mk (s.data.map asciiLowerChar)

/-- The first `n` characters of a string (Rust's byte slicing `&s[0..n]`,
applied in the source only to ASCII hex digests). -/
def strTake (s : String) (n : Nat) : String := String.mk (s.data.take n)

instance {ε α : Type} [DecidableEq ε] [DecidableEq α] : DecidableEq (Except ε α) :=
  fun a b =>
    match a, b with
    | .error e, .error f =>
        if h : e = f then .isTrue (h ▸ rfl) else .isFalse (by intro hc; cases hc; exact h rfl)
    | .ok x, .ok y =>
        if h : x = y then .isTrue (h ▸ rfl) else .isFalse (by intro hc; cases hc; exact h rfl)
    | .error _, .ok _ => .isFalse (by intro hc; cases hc)
    | .ok _, .error _ => .isFalse (by intro hc; cases hc)

/-- One record of a baseline JSON file (`GoldenChart` in the source). -/
structure GoldenChart where
  difficulty : String
  step_type : String
  hash : String
  meter : Option Nat
deriving DecidableEq, Repr

/-- One chart result produced by the engine (`rssp::compute_all_hashes`). -/
structure RsspChart where
  step_type : String
  difficulty : String
  hash : String
deriving DecidableEq, Repr

/-- The grouping key: case-folded `(step_type, difficulty)`. -/
abbrev ChartGroupKey := String × String

/-- Association-list lookup, modelling `HashMap` lookups keyed by a
`ChartGroupKey`-like key. -/
def lookupGroup {α : Type} : List (ChartGroupKey × α) → ChartGroupKey → Option α
  | [], _ => none
  | (k, v) :: rest, key => if k = key then some v else lookupGroup rest key

/-- Association-list removal of a key, modelling `HashMap::remove`. -/
def eraseGroup {α : Type} : List (ChartGroupKey × α) → ChartGroupKey → List (ChartGroupKey × α)
  | [], _ => []
  | (k, v) :: rest, key => if k = key then rest else (k, v) :: eraseGroup rest key

/-- Append `v` to the group of `key`, creating the group when absent,
modelling `map.entry(key).or_default().push(v)`. -/
def insertGroup {α : Type} : List (ChartGroupKey × List α) → ChartGroupKey → α →
    List (ChartGroupKey × List α)
  | [], key, v => [(key, [v])]
  | (k, vs) :: rest, key, v =>
    if k = key then (k, vs ++ [v]) :: rest
    else (k, vs) :: insertGroup rest key v

/-- The map from group keys to expected `(hash, meter)` sequences. -/
abbrev GoldenMap := List (ChartGroupKey × List (String × Option Nat))

/-- The map from group keys to computed hash sequences. -/
abbrev RsspMap := List (ChartGroupKey × List String)

/-- One step of building `golden_map`: skip entries whose lower-cased
`step_type` is outside the allow-list, otherwise push `(hash, meter)` under
the case-folded key (source lines 238-251). -/
def goldenStep (m : GoldenMap) (golden : GoldenChart) : GoldenMap :=
  let step_type_lower := asciiLower golden.step_type
  if step_type_lower ≠ "dance-single" ∧ step_type_lower ≠ "dance-double" then m
  else insertGroup m (step_type_lower, asciiLower golden.difficulty) (golden.hash, golden.meter)

/-- `golden_map` built from the parsed baseline records. -/
def groupGolden (golden_charts : List GoldenChart) : GoldenMap :=
  golden_charts.foldl goldenStep []

/-- One step of building `rssp_map` (source lines 254-264). -/
def rsspStep (m : RsspMap) (chart : RsspChart) : RsspMap :=
  let step_type_lower := asciiLower chart.step_type
  if step_type_lower ≠ "dance-single" ∧ step_type_lower ≠ "dance-double" then m
  else insertGroup m (step_type_lower, asciiLower chart.difficulty) chart.hash

/-- `rssp_map` built from the engine's results. -/
def groupRssp (rssp_charts : List RsspChart) : RsspMap :=
  rssp_charts.foldl rsspStep []

/-- Strict lexicographic order on character sequences, comparing code points,
as Rust's `str::cmp` on its byte sequences (UTF-8 preserves this order). -/
def lexLtb : List Char → List Char → Bool
  | [], [] => false
  | [], _ :: _ => true
  | _ :: _, [] => false
  | a :: as, b :: bs =>
    if a.toNat < b.toNat then true
    else if b.toNat < a.toNat then false
    else lexLtb as bs

/-- Strict lexicographic order on strings. -/
def strLt (a b : String) : Prop := lexLtb a.data b.data = true

/-- Reflexive lexicographic order on strings. -/
def strLe (a b : String) : Prop := strLt a b ∨ a = b

instance : DecidableRel strLt := fun a b =>
  inferInstanceAs (Decidable (lexLtb a.data b.data = true))

instance : DecidableRel strLe := fun a b =>
  inferInstanceAs (Decidable (strLt a b ∨ a = b))

/-- Rust's lexicographic order on the `(String, String)` key tuples, used by
`golden_entries.sort_by(|a, b| a.0.cmp(&b.0))`. -/
def KeyLe (a b : ChartGroupKey) : Prop :=
  strLt a.1 b.1 ∨ (a.1 = b.1 ∧ strLe a.2 b.2)

instance : DecidableRel KeyLe := fun a b =>
  if h : strLt a.1 b.1 ∨ (a.1 = b.1 ∧ strLe a.2 b.2) then .isTrue h else .isFalse h

/-- The order on golden map entries induced by their keys. -/
def EntryLe (a b : ChartGroupKey × List (String × Option Nat)) : Prop := KeyLe a.1 b.1

instance : DecidableRel EntryLe := fun a b =>
  inferInstanceAs (Decidable (KeyLe a.1 b.1))

/-- `golden_entries` after the sort by key (source lines 266-267). -/
def sortGolden (golden_charts : List GoldenChart) : GoldenMap :=
  List.insertionSort EntryLe (groupGolden golden_charts)

/-- Whether a group's expected and actual sequences agree, exactly as the
source computes `matches` (lines 311-315): equal lengths and pointwise equal
hashes over the zip. -/
def groupMatches (expected_entries : List (String × Option Nat))
    (actual_hashes : List String) : Bool :=
  expected_entries.length == actual_hashes.length &&
    (expected_entries.zip actual_hashes).all (fun p => p.1.1 == p.2)

/-- The per-index display status over one group (source lines 287-298):
`true` renders as ....ok, `false` as ....MISMATCH.  The status at `idx` is ok
exactly when the expected hash at `idx` exists and the actual hash at `idx`
equals it. -/
def idxStatus (expected_entries : List (String × Option Nat))
    (actual_hashes : List String) (idx : Nat) : Bool :=
  let expected := (expected_entries.get? idx).map Prod.fst
  let actual := actual_hashes.get? idx
  expected.isSome && expected == actual

/-- The full column of displayed per-index statuses of one group, one entry
per `idx` in `0..count` where `count` is the longer of the two lengths
(source lines 285-309). -/
def groupStatuses (expected_entries : List (String × Option Nat))
    (actual_hashes : List String) : List Bool :=
  (List.range (max expected_entries.length actual_hashes.length)).map
    (idxStatus expected_entries actual_hashes)

/-- The structured errors a single fixture check can produce; each constructor
mirrors one `Err` branch of `check_file` and carries the data interpolated by
the corresponding `format!`. -/
inductive CheckError where
  | ioFailure (msg : String)
  | corruptArchive (msg : String)
  | invalidBaselineFormat (msg : String)
  | engineFailure (msg : String)
  | missingBaseline (file : String) (hash : String) (goldenPath : String)
  | missingChart (file : String) (step_type : String) (difficulty : String)
  | mismatch (file : String) (step_type : String) (difficulty : String)
      (rsspHashes : List String) (goldenHashes : List String)
deriving DecidableEq, Repr

/-- Debug rendering of a list of hashes, standing in for Rust's `{:?}`. -/
def renderHashes (hashes : List String) : String :=
  String.intercalate ", " hashes

/-- The error message text of each failure, following the `format!` strings of
`check_file` verbatim. -/
def renderError : CheckError → String
  | .ioFailure msg => msg
  | .corruptArchive msg => msg
  | .invalidBaselineFormat msg => msg
  | .engineFailure msg => msg
  | .missingBaseline file hash goldenPath =>
      "\n\nMISSING BASELINE\nFile: " ++ file ++ "\nHash: " ++ hash ++
        "\nExpected baseline: " ++ goldenPath ++ "\n"
  | .missingChart file step_type difficulty =>
      "\n\nMISSING CHART DETECTED\nFile: " ++ file ++ "\nExpected: " ++ step_type ++
        " " ++ difficulty ++ "\n"
  | .mismatch file step_type difficulty rsspHashes goldenHashes =>
      "\n\nMISMATCH DETECTED\nFile: " ++ file ++ "\nChart: " ++ step_type ++ " " ++
        difficulty ++ "\nRSSP Hashes:   " ++ renderHashes rsspHashes ++
        "\nGolden Hashes: " ++ renderHashes goldenHashes ++ "\n"

/-- The per-group verdicts of the comparison (spec §3). -/
inductive Verdict where
  | matched : Verdict
  | mismatch (expected actual : List String) : Verdict
  | missingFromActual : Verdict
deriving DecidableEq, Repr

/-- The comparison loop over the sorted golden entries (source lines 271-331):
for each key in order, a missing actual group aborts with MISSING CHART, a
present group is compared with `groupMatches` and aborts with MISMATCH on
disagreement.  The first component is the stream of per-group verdicts the
loop reports before stopping; the second is the returned result. -/
def compareCharts (file : String) :
    GoldenMap → RsspMap → List (ChartGroupKey × Verdict) × Except CheckError Unit
  | [], _ => ([], .ok ())
  | (key, expected_entries) :: rest, rssp_map =>
    match lookupGroup rssp_map key with
    | none =>
        ([(key, .missingFromActual)], .error (.missingChart file key.1 key.2))
    | some actual_hashes =>
        if groupMatches expected_entries actual_hashes then
          let tail := compareCharts file rest (eraseGroup rssp_map key)
          ((key, .matched) :: tail.1, tail.2)
        else
          ([(key, .mismatch (expected_entries.map Prod.fst) actual_hashes)],
            .error (.mismatch file key.1 key.2 actual_hashes
              (expected_entries.map Prod.fst)))

/-- Steps 6 of `check_file`: group both sides, sort the golden entries, run the
comparison loop, and return its result. -/
def checkCharts (file : String) (golden_charts : List GoldenChart)
    (rssp_charts : List RsspChart) : Except CheckError Unit :=
  (compareCharts file (sortGolden golden_charts) (groupRssp rssp_charts)).2

/-- The external world of one run: file reads, zstd decompression, md5,
baseline JSON parsing, and the engine under test, each an opaque function. -/
structure Env where
  readFile : String → Except String ByteSeq
  decodeAll : ByteSeq → Except String ByteSeq
  md5hex : ByteSeq → String
  parseGoldenJson : ByteSeq → Except String (List GoldenChart)
  computeAllHashes : ByteSeq → String → Except String (List RsspChart)
  pathExists : String → Bool

/-- Path concatenation with the separator, modelling `Path::join`. -/
def pathJoin (a b : String) : String := a ++ "/" ++ b

/-- The sharded baseline path `baseline_dir/{xx}/{hash}.json.zst` for a content
digest (source lines 205-211). -/
def goldenPathFor (baseline_dir : String) (file_hash : String) : String :=
  pathJoin (pathJoin baseline_dir (strTake file_hash 2)) (file_hash ++ ".json.zst")

/-- `check_file`: read and decompress the fixture, derive its digest, resolve
the sharded baseline, read, decompress and parse it, run the engine, and
compare (source lines 193-334). -/
def check_file (env : Env) (path : String) (extension : String)
    (baseline_dir : String) : Except CheckError Unit :=
  match env.readFile path with
  | .error e => .error (.ioFailure ("Failed to read file: " ++ e))
  | .ok compressed_bytes =>
  match env.decodeAll compressed_bytes with
  | .error e => .error (.corruptArchive ("Failed to decompress simfile: " ++ e))
  | .ok raw_bytes =>
  let file_hash := env.md5hex raw_bytes
  let golden_path := goldenPathFor baseline_dir file_hash
  if ¬ env.pathExists golden_path then
    .error (.missingBaseline path file_hash golden_path)
  else
  match env.readFile golden_path with
  | .error e => .error (.ioFailure ("Failed to read baseline file: " ++ e))
  | .ok compressed_golden =>
  match env.decodeAll compressed_golden with
  | .error e => .error (.corruptArchive ("Failed to decompress baseline json: " ++ e))
  | .ok json_bytes =>
  match env.parseGoldenJson json_bytes with
  | .error e => .error (.invalidBaselineFormat ("Failed to parse baseline JSON: " ++ e))
  | .ok golden_charts =>
  match env.computeAllHashes raw_bytes extension with
  | .error e => .error (.engineFailure ("RSSP Parsing Error: " ++ e))
  | .ok rssp_charts =>
  checkCharts path golden_charts rssp_charts

/-- One entry of the filesystem walk under `tests/packs` (what `WalkDir`
yields): its full path and whether it is a regular file. -/
structure WalkEntry where
  path : String
  isFile : Bool
deriving DecidableEq, Repr

/-- One discovered fixture (`TestCase` in the source). -/
structure TestCase where
  name : String
  path : String
  extension : String
deriving DecidableEq, Repr

/-- A captured failure (`Failure` in the source): a test name and its trimmed
diagnostic message. -/
structure Failure where
  name : String
  message : String
deriving DecidableEq, Repr

/-- The characters after the last slash of a path: Rust's `Path::file_name`
(up to edge cases for paths with no file name, which discovery filters out). -/
def fileNameOf (p : String) : String :=
  let cs := p.data
  match cs.reverse.findIdx? (fun c => c = '/') with
  | none => p
  | some i => String.mk (cs.drop (cs.length - i))

/-- Split a file name into Rust's `(file_stem, extension)`: the portion before
and after the final dot, with no extension when there is no dot or when the
only dot leads the name. -/
def splitExt (name : String) : String × Option String :=
  let cs := name.data
  match cs.reverse.findIdx? (fun c => c = '.') with
  | none => (name, none)
  | some i =>
    if i = cs.length - 1 then (name, none)
    else (String.mk (cs.take (cs.length - 1 - i)), some (String.mk (cs.drop (cs.length - i))))

/-- Rust's `Path::extension` of the path's file name. -/
def pathExtension (p : String) : Option String := (splitExt (fileNameOf p)).2

/-- Rust's `Path::file_stem` of the path's file name. -/
def pathFileStem (p : String) : String := (splitExt (fileNameOf p)).1

/-- Drop the pack-root prefix from a path, modelling
`path.strip_prefix(&packs_dir).unwrap_or(path)`. -/
def stripRoot (root : String) (p : String) : String :=
  let pre := (root ++ "/").data
  if pre.isPrefixOf p.data then String.mk (p.data.drop pre.length) else p

/-- The eligibility test and construction of one test case from one walk entry
(source lines 36-71): regular files whose outer extension is exactly zst and
whose lower-cased inner extension is sm or ssc. -/
def toTestCase (packs_dir : String) (e : WalkEntry) : Option TestCase :=
  if ¬ e.isFile then none
  else
    let ext := (pathExtension e.path).getD ""
    if ext ≠ "zst" then none
    else
      let stem := pathFileStem e.path
      let inner_extension := ((splitExt stem).2.map asciiLower).getD ""
      if inner_extension ≠ "sm" ∧ inner_extension ≠ "ssc" then none
      else some ⟨stripRoot packs_dir e.path, e.path, inner_extension⟩

/-- The order on test cases used by `tests.sort_by(|a, b| a.name.cmp(&b.name))`. -/
def NameLe (a b : TestCase) : Prop := strLe a.name b.name

instance : DecidableRel NameLe := fun a b =>
  inferInstanceAs (Decidable (strLe a.name b.name))

/-- The candidate test cases of a walk, in walk order (before the sort). -/
def discoverCandidates (packs_dir : String) (entries : List WalkEntry) : List TestCase :=
  entries.filterMap (toTestCase packs_dir)

/-- Discovery over a walk: filter eligible entries, then sort by name so the
result does not depend on the filesystem enumeration order (source lines
36-74). -/
def discover (packs_dir : String) (entries : List WalkEntry) : List TestCase :=
  List.insertionSort NameLe (discoverCandidates packs_dir entries)

/-- Whether `sub` occurs as a contiguous sublist of `l`, modelling Rust's
`str::contains` on the character sequences. -/
def containsSub (sub : List Char) : List Char → Bool
  | [] => sub.isEmpty
  | c :: t => sub.isPrefixOf (c :: t) || containsSub sub t

/-- Substring containment of strings. -/
def strContains (s sub : String) : Bool := containsSub sub.data s.data

/-- The CLI arguments in scope (a `libtest-mimic` subset). -/
structure Args where
  filter : Option String
  exact : Bool
  skip : List String
  ignored : Bool
  list : Bool
deriving DecidableEq, Repr

/-- The CLI filtering of the sorted test list (source lines 76-95): an
optional substring or exact filter on the name, skip substrings, and the
ignored mode that always clears the list. -/
def applyFilters (args : Args) (tests : List TestCase) : List TestCase :=
  let tests := tests.filter fun t =>
    match args.filter with
    | none => true
    | some filter => if args.exact then t.name == filter else strContains t.name filter
  let tests := tests.filter fun t => args.skip.all fun skip => ! strContains t.name skip
  if args.ignored then [] else tests

/-- The accumulated outcome of the sequential run loop. -/
structure RunState where
  numPassed : Nat
  numFailed : Nat
  failures : List Failure
deriving DecidableEq, Repr

/-- One iteration of the run loop (source lines 111-136): check the fixture,
then either count a pass or record the trimmed failure message and count a
failure. -/
def runStep (env : Env) (baseline_dir : String) (acc : RunState) (test : TestCase) :
    RunState :=
  match check_file env test.path test.extension baseline_dir with
  | .ok _ => { acc with numPassed := acc.numPassed + 1 }
  | .error e =>
      { acc with
        numFailed := acc.numFailed + 1,
        failures := acc.failures ++ [⟨test.name, (renderError e).trim⟩] }

/-- The sequential run over all surviving tests. -/
def runTests (env : Env) (baseline_dir : String) (tests : List TestCase) : RunState :=
  tests.foldl (runStep env baseline_dir) ⟨0, 0, []⟩

/-- `resolve_baseline_dir`: probe the nested `baseline/baseline` layout first
and fall back to the flat layout (source lines 185-191). -/
def resolve_baseline_dir (env : Env) (default_dir : String) : String :=
  let nested := pathJoin default_dir "baseline"
  if env.pathExists nested then nested else default_dir

/-- The state of the world a run observes: whether `tests/packs` exists, the
walk under it, the effectful environment, and the parsed CLI arguments. -/
structure World where
  packsExists : Bool
  walkEntries : List WalkEntry
  env : Env
  args : Args

/-- The observable outcome of `main`: the process exit code and how many
fixtures were executed. -/
structure MainResult where
  exitCode : Nat
  executed : Nat
deriving DecidableEq, Repr

/-- `main` (source lines 19-170): resolve paths, return exit code 0 when
`tests/packs` is missing, discover and filter tests, return 0 in list mode,
otherwise run every test and exit 0 when none failed and 101 otherwise. -/
def mainRun (manifest_dir : String) (w : World) : MainResult :=
  let packs_dir := pathJoin manifest_dir "tests/packs"
  let baseline_dir := resolve_baseline_dir w.env (pathJoin manifest_dir "tests/baseline")
  if ¬ w.packsExists then ⟨0, 0⟩
  else
    let tests := applyFilters w.args (discover packs_dir w.walkEntries)
    if w.args.list then ⟨0, 0⟩
    else
      let r := runTests w.env baseline_dir tests
      if r.numFailed = 0 then ⟨0, tests.length⟩ else ⟨101, tests.length⟩

/-- Distinctness of the keys of an association map. -/
def DistinctKeys {α : Type} (m : List (ChartGroupKey × α)) : Prop :=
  (m.map Prod.fst).Nodup

/-!  Concrete environments used to instantiate the theorems below. -/

/-- An environment realising the Pass scenario of spec §8: one dance-single
hard chart whose baseline and engine hashes agree. -/
def envPassScenario : Env :=
  ⟨fun _ => .ok [], fun _ => .ok [], fun _ => "d41d8cd98f00b204e9800998ecf8427e",
    fun _ => .ok [⟨"Hard", "dance-single", "abc123", none⟩],
    fun _ _ => .ok [⟨"dance-single", "hard", "abc123"⟩], fun _ => true⟩

/-- An environment whose baseline declares a mismatching dance-double group
and a dance-single group that the engine does not produce at all. -/
def envMismatchAndMissing : Env :=
  ⟨fun _ => .ok [], fun _ => .ok [], fun _ => "ab12",
    fun _ => .ok [⟨"easy", "dance-double", "hx", none⟩, ⟨"easy", "dance-single", "hy", none⟩],
    fun _ _ => .ok [⟨"dance-double", "easy", "zz"⟩], fun _ => true⟩

/-- An environment whose baseline declares a dance-double group that the
engine does not produce, all produced groups agreeing. -/
def envMissingOnly : Env :=
  ⟨fun _ => .ok [], fun _ => .ok [], fun _ => "ab12",
    fun _ => .ok [⟨"Hard", "dance-single", "h1", none⟩, ⟨"Hard", "dance-double", "h2", none⟩],
    fun _ _ => .ok [⟨"dance-single", "hard", "h1"⟩], fun _ => true⟩

/-- An environment in which no baseline file exists at any path. -/
def envNoBaseline : Env :=
  ⟨fun _ => .ok [], fun _ => .ok [], fun _ => "ab12cd", fun _ => .ok [],
    fun _ _ => .ok [], fun _ => false⟩

/-- A world with a single fixture whose check passes. -/
def worldOnePass : World :=
  ⟨true, [⟨"m/tests/packs/Pack/Song/file.sm.zst", true⟩], envPassScenario,
    ⟨none, false, [], false, false⟩⟩

/-- A world identical to `worldOnePass` except that the engine fails, so its
single fixture fails. -/
def worldOneFail : World :=
  ⟨true, [⟨"m/tests/packs/Pack/Song/file.sm.zst", true⟩],
    ⟨fun _ => .ok [], fun _ => .ok [], fun _ => "ab12cd", fun _ => .ok [],
      fun _ _ => .error "parse error", fun _ => true⟩,
    ⟨none, false, [], false, false⟩⟩

/-!  Properties of the lexicographic order. -/

theorem charToNat_inj {a b : Char} (h : a.toNat = b.toNat) : a = b :=
  Char.ext (UInt32.ext h)

theorem lexLtb_irrefl : ∀ l : List Char, lexLtb l l = false
  | [] => rfl
  | a :: as => by simp [lexLtb, Nat.lt_irrefl, lexLtb_irrefl as]

theorem lexLtb_asymm : ∀ {l₁ l₂ : List Char},
    lexLtb l₁ l₂ = true → lexLtb l₂ l₁ = true → False
  | [], [], h₁, _ => by simp [lexLtb] at h₁
  | [], _ :: _, _, h₂ => by simp [lexLtb] at h₂
  | _ :: _, [], h₁, _ => by simp [lexLtb] at h₁
  | a :: as, b :: bs, h₁, h₂ => by
    by_cases hab : a.toNat < b.toNat
    · have hba : ¬ b.toNat < a.toNat := Nat.lt_asymm hab
      simp [lexLtb, hab, hba] at h₂
    · by_cases hba : b.toNat < a.toNat
      · simp [lexLtb, hab, hba] at h₁
      · simp [lexLtb, hab, hba] at h₁ h₂
        exact lexLtb_asymm h₁ h₂

theorem lexLtb_trans : ∀ {l₁ l₂ l₃ : List Char},
    lexLtb l₁ l₂ = true → lexLtb l₂ l₃ = true → lexLtb l₁ l₃ = true
  | _, [], [], _, h₂ => by simp [lexLtb] at h₂
  | [], _ :: _, _ :: _, _, _ => by simp [lexLtb]
  | _ :: _, [], _ :: _, h₁, _ => by simp [lexLtb] at h₁
  | _ :: _, _ :: _, [], _, h₂ => by simp [lexLtb] at h₂
  | [], [], _, h₁, _ => by simp [lexLtb] at h₁
  | a :: as, b :: bs, c :: cs, h₁, h₂ => by
    by_cases hab : a.toNat < b.toNat
    · by_cases hbc : b.toNat < c.toNat
      · have hac : a.toNat < c.toNat := Nat.lt_trans hab hbc
        simp [lexLtb, hac]
      · by_cases hcb : c.toNat < b.toNat
        · simp [lexLtb, hbc, hcb] at h₂
        · have hbc' : b.toNat = c.toNat := Nat.le_antisymm (Nat.le_of_not_lt hcb) (Nat.le_of_not_lt hbc)
          have hac : a.toNat < c.toNat := hbc' ▸ hab
          simp [lexLtb, hac]
    · by_cases hba : b.toNat < a.toNat
      · simp [lexLtb, hab, hba] at h₁
      · have hab' : a.toNat = b.toNat := Nat.le_antisymm (Nat.le_of_not_lt hba) (Nat.le_of_not_lt hab)
        simp [lexLtb, hab, hba] at h₁
        by_cases hbc : b.toNat < c.toNat
        · have hac : a.toNat < c.toNat := hab' ▸ hbc
          simp [lexLtb, hac]
        · by_cases hcb : c.toNat < b.toNat
          · simp [lexLtb, hbc, hcb] at h₂
          · simp [lexLtb, hbc, hcb] at h₂
            have hac : ¬ a.toNat < c.toNat := fun h => hbc (hab' ▸ h)
            have hca : ¬ c.toNat < a.toNat := fun h => hcb (hab' ▸ h)
            simp [lexLtb, hac, hca]
            exact lexLtb_trans h₁ h₂

theorem lexLtb_connex : ∀ {l₁ l₂ : List Char},
    lexLtb l₁ l₂ = false → lexLtb l₂ l₁ = false → l₁ = l₂
  | [], [], _, _ => rfl
  | [], _ :: _, h₁, _ => by simp [lexLtb] at h₁
  | _ :: _, [], _, h₂ => by simp [lexLtb] at h₂
  | a :: as, b :: bs, h₁, h₂ => by
    by_cases hab : a.toNat < b.toNat
    · simp [lexLtb, hab] at h₁
    · by_cases hba : b.toNat < a.toNat
      · simp [lexLtb, hab, hba] at h₂
      · have hab' : a = b :=
          charToNat_inj (Nat.le_antisymm (Nat.le_of_not_lt hba) (Nat.le_of_not_lt hab))
        simp [lexLtb, hab, hba] at h₁ h₂
        exact hab' ▸ congrArg (a :: ·) (lexLtb_connex h₁ h₂)

theorem strLt_asymm {a b : String} (h₁ : strLt a b) (h₂ : strLt b a) : False :=
  lexLtb_asymm h₁ h₂

theorem strLt_trans {a b c : String} (h₁ : strLt a b) (h₂ : strLt b c) : strLt a c :=
  lexLtb_trans h₁ h₂

theorem strLt_connex {a b : String} (h₁ : ¬ strLt a b) (h₂ : ¬ strLt b a) : a = b := by
  have hd : a.data = b.data :=
    lexLtb_connex (Bool.eq_false_iff.mpr h₁) (Bool.eq_false_iff.mpr h₂)
  cases a; cases b; exact congrArg String.mk hd

theorem strLt_irrefl (a : String) : ¬ strLt a a := by
  intro h
  exact strLt_asymm h h

theorem strLe_total (a b : String) : strLe a b ∨ strLe b a := by
  by_cases h₁ : strLt a b
  · exact Or.inl (Or.inl h₁)
  · by_cases h₂ : strLt b a
    · exact Or.inr (Or.inl h₂)
    · exact Or.inl (Or.inr (strLt_connex h₁ h₂))

theorem strLe_trans {a b c : String} (h₁ : strLe a b) (h₂ : strLe b c) : strLe a c := by
  rcases h₁ with h₁ | rfl
  · rcases h₂ with h₂ | rfl
    · exact Or.inl (strLt_trans h₁ h₂)
    · exact Or.inl h₁
  · exact h₂

theorem strLe_antisymm {a b : String} (h₁ : strLe a b) (h₂ : strLe b a) : a = b := by
  rcases h₁ with h₁ | rfl
  · rcases h₂ with h₂ | rfl
    · exact absurd h₂ (fun h => strLt_asymm h₁ h)
    · rfl
  · rfl

instance : IsTrans ChartGroupKey KeyLe where
  trans := by
    rintro a b c (h₁ | ⟨e₁, h₁⟩) (h₂ | ⟨e₂, h₂⟩)
    · exact Or.inl (strLt_trans h₁ h₂)
    · exact Or.inl (e₂ ▸ h₁)
    · exact Or.inl (e₁ ▸ h₂)
    · exact Or.inr ⟨e₁.trans e₂, strLe_trans h₁ h₂⟩

instance : IsTotal ChartGroupKey KeyLe where
  total := by
    intro a b
    by_cases h₁ : strLt a.1 b.1
    · exact Or.inl (Or.inl h₁)
    · by_cases h₂ : strLt b.1 a.1
      · exact Or.inr (Or.inl h₂)
      · have e : a.1 = b.1 := strLt_connex h₁ h₂
        rcases strLe_total a.2 b.2 with h | h
        · exact Or.inl (Or.inr ⟨e, h⟩)
        · exact Or.inr (Or.inr ⟨e.symm, h⟩)

instance : IsAntisymm ChartGroupKey KeyLe where
  antisymm := by
    rintro ⟨a₁, a₂⟩ ⟨b₁, b₂⟩ (h₁ | ⟨e₁, h₁⟩) (h₂ | ⟨e₂, h₂⟩)
    · exact absurd h₂ (fun h => strLt_asymm h₁ h)
    · exact absurd h₁ (e₂ ▸ strLt_irrefl b₁)
    · exact absurd h₂ (e₁ ▸ strLt_irrefl a₁)
    · exact Prod.ext e₁ (strLe_antisymm h₁ h₂)

instance : IsTrans (ChartGroupKey × List (String × Option Nat)) EntryLe where
  trans := fun _ _ _ h₁ h₂ => Trans.trans (r := KeyLe) h₁ h₂

instance : IsTotal (ChartGroupKey × List (String × Option Nat)) EntryLe where
  total := fun a b => IsTotal.total (r := KeyLe) a.1 b.1

instance : IsTrans TestCase NameLe where
  trans := fun _ _ _ h₁ h₂ => strLe_trans h₁ h₂

instance : IsTotal TestCase NameLe where
  total := fun a b => strLe_total a.name b.name

/-!  Association-map lemmas. -/

theorem lookupGroup_erase_ne {α : Type} (k k' : ChartGroupKey) (h : k' ≠ k) :
    ∀ m : List (ChartGroupKey × α), lookupGroup (eraseGroup m k) k' = lookupGroup m k'
  | [] => rfl
  | (a, v) :: rest => by
    by_cases hak : a = k
    · subst hak
      have hak' : a ≠ k' := fun e => h (e ▸ rfl)
      simp [eraseGroup, lookupGroup, hak']
    · simp only [eraseGroup, if_neg hak, lookupGroup]
      by_cases hak' : a = k'
      · simp [hak']
      · simp [hak', lookupGroup_erase_ne k k' h rest]

theorem insertGroup_fst {α : Type} (k : ChartGroupKey) (v : α) :
    ∀ m : List (ChartGroupKey × List α),
      (insertGroup m k v).map Prod.fst =
        if k ∈ m.map Prod.fst then m.map Prod.fst else m.map Prod.fst ++ [k]
  | [] => by simp [insertGroup]
  | (a, vs) :: rest => by
    by_cases hak : a = k
    · subst hak
      simp [insertGroup]
    · have hka : ¬ k = a := fun e => hak e.symm
      simp only [insertGroup, if_neg hak, List.map_cons, List.mem_cons, hka, false_or]
      rw [insertGroup_fst k v rest]
      by_cases hmem : k ∈ rest.map Prod.fst <;> simp [hmem]

theorem distinct_insertGroup {α : Type} {m : List (ChartGroupKey × List α)}
    (k : ChartGroupKey) (v : α) (h : DistinctKeys m) : DistinctKeys (insertGroup m k v) := by
  unfold DistinctKeys at h ⊢
  rw [insertGroup_fst]
  by_cases hmem : k ∈ m.map Prod.fst
  · simpa [hmem] using h
  · simp [hmem, List.nodup_append, h]

theorem distinct_goldenStep {m : GoldenMap} (g : GoldenChart) (h : DistinctKeys m) :
    DistinctKeys (goldenStep m g) := by
  by_cases hc : asciiLower g.step_type ≠ "dance-single" ∧ asciiLower g.step_type ≠ "dance-double"
  · simpa [goldenStep, hc] using h
  · simpa [goldenStep, hc] using distinct_insertGroup _ _ h

theorem distinct_rsspStep {m : RsspMap} (c : RsspChart) (h : DistinctKeys m) :
    DistinctKeys (rsspStep m c) := by
  by_cases hc : asciiLower c.step_type ≠ "dance-single" ∧ asciiLower c.step_type ≠ "dance-double"
  · simpa [rsspStep, hc] using h
  · simpa [rsspStep, hc] using distinct_insertGroup _ _ h

theorem distinct_foldl_goldenStep :
    ∀ (l : List GoldenChart) (m : GoldenMap), DistinctKeys m →
      DistinctKeys (l.foldl goldenStep m)
  | [], _, h => h
  | g :: l, m, h => distinct_foldl_goldenStep l (goldenStep m g) (distinct_goldenStep g h)

theorem distinct_groupGolden (l : List GoldenChart) : DistinctKeys (groupGolden l) :=
  distinct_foldl_goldenStep l [] List.nodup_nil

theorem distinct_foldl_rsspStep :
    ∀ (l : List RsspChart) (m : RsspMap), DistinctKeys m →
      DistinctKeys (l.foldl rsspStep m)
  | [], _, h => h
  | c :: l, m, h => distinct_foldl_rsspStep l (rsspStep m c) (distinct_rsspStep c h)

theorem distinct_groupRssp (l : List RsspChart) : DistinctKeys (groupRssp l) :=
  distinct_foldl_rsspStep l [] List.nodup_nil

theorem sortGolden_perm (l : List GoldenChart) : (sortGolden l).Perm (groupGolden l) :=
  List.perm_insertionSort EntryLe (groupGolden l)

theorem sortGolden_sorted (l : List GoldenChart) : (sortGolden l).Sorted EntryLe :=
  List.sorted_insertionSort EntryLe (groupGolden l)

theorem distinct_sortGolden (l : List GoldenChart) : DistinctKeys (sortGolden l) :=
  (((sortGolden_perm l).map Prod.fst).nodup_iff).mpr (distinct_groupGolden l)

/-!  Lemmas about one group's comparison. -/

theorem groupMatches_iff :
    ∀ (e : List (String × Option Nat)) (a : List String),
      groupMatches e a = true ↔ e.map Prod.fst = a
  | [], a => by cases a <;> simp [groupMatches]
  | x :: e, [] => by simp [groupMatches]
  | x :: e, y :: ys => by
    have ih := groupMatches_iff e ys
    simp only [groupMatches, Bool.and_eq_true, beq_iff_eq, List.length_cons,
      List.zip_cons_cons, List.all_cons, List.map_cons, List.cons.injEq] at ih ⊢
    constructor
    · rintro ⟨hlen, hxy, hall⟩
      exact ⟨hxy, ih.mp ⟨Nat.succ_injective hlen, hall⟩⟩
    · rintro ⟨hxy, hrest⟩
      obtain ⟨hlen, hall⟩ := ih.mpr hrest
      exact ⟨congrArg Nat.succ hlen, hxy, hall⟩

/-!  Lemmas about the comparison loop. -/

theorem compare_ok_iff (file : String) :
    ∀ (gs : GoldenMap) (m : RsspMap), DistinctKeys gs →
      ((compareCharts file gs m).2 = .ok () ↔
        ∀ p ∈ gs, lookupGroup m p.1 = some (p.2.map Prod.fst))
  | [], m, _ => by simp [compareCharts]
  | (k, e) :: rest, m, hd => by
    obtain ⟨hk, hrest⟩ : k ∉ rest.map Prod.fst ∧ (rest.map Prod.fst).Nodup := by
      simpa [DistinctKeys, List.nodup_cons] using hd
    have hrestD : DistinctKeys rest := hrest
    cases hl : lookupGroup m k with
    | none =>
      simp only [compareCharts, hl]
      constructor
      · intro h; exact absurd h (by simp)
      · intro h
        have h₁ := h (k, e) (List.mem_cons_self _ _)
        rw [hl] at h₁
        exact absurd h₁ (by simp)
    | some a =>
      by_cases hm : groupMatches e a = true
      · have ha : e.map Prod.fst = a := (groupMatches_iff e a).mp hm
        have ih := compare_ok_iff file rest (eraseGroup m k) hrestD
        simp only [compareCharts, hl, hm, if_true]
        constructor
        · intro h p hp
          rcases List.mem_cons.mp hp with rfl | hp'
          · rw [hl, ha]
          · have hpk : p.1 ≠ k := fun hpe => hk (hpe ▸ List.mem_map_of_mem Prod.fst hp')
            rw [← lookupGroup_erase_ne k p.1 hpk m]
            exact (ih.mp h) p hp'
        · intro h
          apply ih.mpr
          intro p hp'
          have hpk : p.1 ≠ k := fun hpe => hk (hpe ▸ List.mem_map_of_mem Prod.fst hp')
          rw [lookupGroup_erase_ne k p.1 hpk m]
          exact h p (List.mem_cons_of_mem _ hp')
      · have hm' : groupMatches e a = false := Bool.eq_false_iff.mpr hm
        simp only [compareCharts, hl, hm', if_false, Bool.false_eq_true]
        constructor
        · intro h; exact absurd h (by simp)
        · intro h
          have h₁ := h (k, e) (List.mem_cons_self _ _)
          rw [hl] at h₁
          have ha : a = e.map Prod.fst := by injection h₁
          exact (hm ((groupMatches_iff e a).mpr ha.symm)).elim

theorem compare_keys_take (file : String) :
    ∀ (gs : GoldenMap) (m : RsspMap),
      ∃ n, (compareCharts file gs m).1.map Prod.fst = (gs.map Prod.fst).take n
  | [], m => ⟨0, by simp [compareCharts]⟩
  | (k, e) :: rest, m => by
    cases hl : lookupGroup m k with
    | none => exact ⟨1, by simp [compareCharts, hl]⟩
    | some a =>
      by_cases hm : groupMatches e a = true
      · obtain ⟨n, hn⟩ := compare_keys_take file rest (eraseGroup m k)
        exact ⟨n + 1, by simp [compareCharts, hl, hm, hn]⟩
      · have hm' : groupMatches e a = false := Bool.eq_false_iff.mpr hm
        exact ⟨1, by simp [compareCharts, hl, hm']⟩

theorem compare_verdicts_ok_iff (file : String) :
    ∀ (gs : GoldenMap) (m : RsspMap),
      ((compareCharts file gs m).2 = .ok () ↔
        (compareCharts file gs m).1 = gs.map (fun p => (p.1, Verdict.matched)))
  | [], m => by simp [compareCharts]
  | (k, e) :: rest, m => by
    cases hl : lookupGroup m k with
    | none => simp [compareCharts, hl]
    | some a =>
      by_cases hm : groupMatches e a = true
      · have ih := compare_verdicts_ok_iff file rest (eraseGroup m k)
        simp [compareCharts, hl, hm, ih]
      · have hm' : groupMatches e a = false := Bool.eq_false_iff.mpr hm
        simp [compareCharts, hl, hm']

theorem compare_first_missing (file : String) :
    ∀ (gs : GoldenMap) (m : RsspMap), DistinctKeys gs →
      (∀ p ∈ gs, ∀ a, lookupGroup m p.1 = some a → groupMatches p.2 a = true) →
      (∃ p ∈ gs, lookupGroup m p.1 = none) →
      ∃ k : ChartGroupKey,
        (compareCharts file gs m).2 = .error (.missingChart file k.1 k.2) ∧
          lookupGroup m k = none ∧ k ∈ gs.map Prod.fst
  | [], _, _, _, hex => absurd hex (by simp)
  | (k, e) :: rest, m, hd, hall, hex => by
    obtain ⟨hk, hrest⟩ : k ∉ rest.map Prod.fst ∧ (rest.map Prod.fst).Nodup := by
      simpa [DistinctKeys, List.nodup_cons] using hd
    have hrestD : DistinctKeys rest := hrest
    cases hl : lookupGroup m k with
    | none =>
      exact ⟨k, by simp [compareCharts, hl], hl, by simp⟩
    | some a =>
      have hm : groupMatches e a = true := hall (k, e) (List.mem_cons_self _ _) a hl
      obtain ⟨p, hp, hpnone⟩ := hex
      rcases List.mem_cons.mp hp with rfl | hp'
      · rw [hl] at hpnone
        exact absurd hpnone (by simp)
      · have hpk : p.1 ≠ k := fun hpe => hk (hpe ▸ List.mem_map_of_mem Prod.fst hp')
        have hall' : ∀ q ∈ rest, ∀ a',
            lookupGroup (eraseGroup m k) q.1 = some a' → groupMatches q.2 a' = true := by
          intro q hq a' hqa
          have hqk : q.1 ≠ k := fun hqe => hk (hqe ▸ List.mem_map_of_mem Prod.fst hq)
          rw [lookupGroup_erase_ne k q.1 hqk m] at hqa
          exact hall q (List.mem_cons_of_mem _ hq) a' hqa
        have hex' : ∃ q ∈ rest, lookupGroup (eraseGroup m k) q.1 = none :=
          ⟨p, hp', by rw [lookupGroup_erase_ne k p.1 hpk m]; exact hpnone⟩
        obtain ⟨k', hres, hnone', hmem'⟩ :=
          compare_first_missing file rest (eraseGroup m k) hrestD hall' hex'
        refine ⟨k', ?_, ?_, ?_⟩
        · simpa [compareCharts, hl, hm] using hres
        · have hk'k : k' ≠ k := fun he => hk (he ▸ hmem')
          rw [← lookupGroup_erase_ne k k' hk'k m]
          exact hnone'
        · simp [hmem']

/-- Under hypotheses fixing every effectful step's outcome, `check_file`
reduces to the pure comparison `checkCharts`. -/
theorem check_file_eq_checkCharts (env : Env) (path extension baseline_dir : String)
    (cb raw cg jb : ByteSeq) (golden_charts : List GoldenChart)
    (rssp_charts : List RsspChart)
    (h₁ : env.readFile path = .ok cb) (h₂ : env.decodeAll cb = .ok raw)
    (h₃ : env.pathExists (goldenPathFor baseline_dir (env.md5hex raw)) = true)
    (h₄ : env.readFile (goldenPathFor baseline_dir (env.md5hex raw)) = .ok cg)
    (h₅ : env.decodeAll cg = .ok jb)
    (h₆ : env.parseGoldenJson jb = .ok golden_charts)
    (h₇ : env.computeAllHashes raw extension = .ok rssp_charts) :
    check_file env path extension baseline_dir =
      checkCharts path golden_charts rssp_charts := by
  simp [check_file, h₁, h₂, h₃, h₄, h₅, h₆, h₇]

theorem idxStatus_all_iff :
    ∀ (e : List (String × Option Nat)) (a : List String),
      (∀ i, i < max e.length a.length → idxStatus e a i = true) ↔ e.map Prod.fst = a
  | [], [] => by simp
  | [], y :: ys => by
    constructor
    · intro h
      have h0 := h 0 (by simp)
      simp [idxStatus] at h0
    · intro h
      simp at h
  | x :: e, [] => by
    constructor
    · intro h
      have h0 := h 0 (by simp)
      simp [idxStatus] at h0
    · intro h
      simp at h
  | x :: e, y :: ys => by
    have ih := idxStatus_all_iff e ys
    constructor
    · intro h
      have hx : x.1 = y := by simpa [idxStatus] using h 0 (by simp)
      simp only [List.map_cons, List.cons.injEq]
      refine ⟨hx, ih.mp ?_⟩
      intro i hi
      have hi' : i + 1 < max (x :: e).length (y :: ys).length := by
        simp only [List.length_cons]
        omega
      simpa [idxStatus] using h (i + 1) hi'
    · intro h i hi
      simp only [List.map_cons, List.cons.injEq] at h
      obtain ⟨hx, hrest⟩ := h
      cases i with
      | zero => simp [idxStatus, hx]
      | succ i =>
        have hi' : i < max e.length ys.length := by
          simp only [List.length_cons] at hi
          omega
        simpa [idxStatus] using ih.mpr hrest i hi'

/-- Claim C1: for a fixture whose pipeline reaches the comparison (readable,
decompressible, baseline resolvable, parsable, engine succeeds), the check
passes iff every key of the filtered expected grouping is present in the
filtered actual grouping with a positionally equal hash sequence; groups
present only in the actual grouping do not appear in the condition and cannot
change the verdict. -/
theorem spec_C1_pass_iff (env : Env) (path extension baseline_dir : String)
    (cb raw cg jb : ByteSeq) (golden_charts : List GoldenChart)
    (rssp_charts : List RsspChart)
    (h₁ : env.readFile path = .ok cb) (h₂ : env.decodeAll cb = .ok raw)
    (h₃ : env.pathExists (goldenPathFor baseline_dir (env.md5hex raw)) = true)
    (h₄ : env.readFile (goldenPathFor baseline_dir (env.md5hex raw)) = .ok cg)
    (h₅ : env.decodeAll cg = .ok jb)
    (h₆ : env.parseGoldenJson jb = .ok golden_charts)
    (h₇ : env.computeAllHashes raw extension = .ok rssp_charts) :
    check_file env path extension baseline_dir = .ok () ↔
      ∀ p ∈ groupGolden golden_charts,
        lookupGroup (groupRssp rssp_charts) p.1 = some (p.2.map Prod.fst) := by
  rw [check_file_eq_checkCharts env path extension baseline_dir cb raw cg jb
    golden_charts rssp_charts h₁ h₂ h₃ h₄ h₅ h₆ h₇]
  unfold checkCharts
  rw [compare_ok_iff path (sortGolden golden_charts) (groupRssp rssp_charts)
    (distinct_sortGolden _)]
  constructor
  · intro h p hp
    exact h p ((sortGolden_perm golden_charts).mem_iff.mpr hp)
  · intro h p hp
    exact h p ((sortGolden_perm golden_charts).mem_iff.mp hp)

/-- Witness for C1 at the Pass scenario of spec §8. -/
theorem spec_C1_witness :
    check_file envPassScenario "PackA/Song1/file.ssc.zst" "ssc" "tests/baseline" = .ok () := by
  apply (spec_C1_pass_iff envPassScenario "PackA/Song1/file.ssc.zst" "ssc" "tests/baseline"
    [] [] [] [] [⟨"Hard", "dance-single", "abc123", none⟩]
    [⟨"dance-single", "hard", "abc123"⟩] rfl rfl rfl rfl rfl rfl rfl).mpr
  decide

/-- Claim C3: a group is judged matching exactly when every index up to the longer
of the two lengths has both hashes present and equal (an index present on
only one side is a non-match), which holds exactly when the two sequences are
equal as lists. -/
theorem spec_C3_positional (expected_entries : List (String × Option Nat))
    (actual_hashes : List String) :
    (groupMatches expected_entries actual_hashes = true ↔
      ∀ idx, idx < max expected_entries.length actual_hashes.length →
        idxStatus expected_entries actual_hashes idx = true) ∧
    (groupMatches expected_entries actual_hashes = true ↔
      expected_entries.map Prod.fst = actual_hashes) := by
  have h₂ := idxStatus_all_iff expected_entries actual_hashes
  have h₃ := groupMatches_iff expected_entries actual_hashes
  exact ⟨h₃.trans h₂.symm, h₃⟩

/-- Claim C10: the displayed per-index statuses and the group-level `matches`
computation agree: the group is judged matching iff no displayed status is a
mismatch. -/
theorem spec_C10_status_refines (expected_entries : List (String × Option Nat))
    (actual_hashes : List String) :
    (groupStatuses expected_entries actual_hashes).all id =
      groupMatches expected_entries actual_hashes := by
  have h₁ : ((groupStatuses expected_entries actual_hashes).all id = true) ↔
      ∀ i, i < max expected_entries.length actual_hashes.length →
        idxStatus expected_entries actual_hashes i = true := by
    simp [groupStatuses, List.all_eq_true]
  have h₂ := idxStatus_all_iff expected_entries actual_hashes
  have h₃ := groupMatches_iff expected_entries actual_hashes
  by_cases hg : groupMatches expected_entries actual_hashes = true
  · rw [hg, h₁.mpr (h₂.mpr (h₃.mp hg))]
  · rw [Bool.eq_false_iff.mpr hg]
    by_cases hs : (groupStatuses expected_entries actual_hashes).all id = true
    · exact absurd (h₃.mpr (h₂.mp (h₁.mp hs))) hg
    · exact Bool.eq_false_iff.mpr hs

/-- Claim C2 counterexample: with two expected groups and the lexicographically
first one missing from the actual grouping, the comparison stops after one
pair, so the expected key ("dance-single", "easy") receives no
(ChartGroupKey, Verdict) pair even though it is present in the expected
grouping. -/
theorem spec_C2_counterexample :
    (("dance-single", "easy") ∈
      (sortGolden [⟨"easy", "dance-double", "h1", none⟩,
        ⟨"easy", "dance-single", "h2", none⟩]).map Prod.fst) ∧
    (compareCharts "f"
      (sortGolden [⟨"easy", "dance-double", "h1", none⟩,
        ⟨"easy", "dance-single", "h2", none⟩])
      (groupRssp [])).1.map Prod.fst = [("dance-double", "easy")] := by
  decide

/-- Claim C2 amended: the comparison enumerates the expected grouping's keys in
lexicographic order on (step_type, difficulty) and emits at most one pair per
key, but stops at the first failing group: the emitted keys form a prefix of
the sorted expected keys, and they cover the whole expected grouping (all
with verdict Match) exactly when the comparison succeeds. -/
theorem spec_C2_enumeration (file : String) (golden_charts : List GoldenChart)
    (rssp_charts : List RsspChart) :
    ((sortGolden golden_charts).map Prod.fst).Sorted KeyLe ∧
    (∃ n, (compareCharts file (sortGolden golden_charts)
        (groupRssp rssp_charts)).1.map Prod.fst =
      ((sortGolden golden_charts).map Prod.fst).take n) ∧
    ((compareCharts file (sortGolden golden_charts)
        (groupRssp rssp_charts)).1.map Prod.fst).Nodup ∧
    ((compareCharts file (sortGolden golden_charts) (groupRssp rssp_charts)).2 = .ok () ↔
      (compareCharts file (sortGolden golden_charts) (groupRssp rssp_charts)).1 =
        (sortGolden golden_charts).map (fun p => (p.1, Verdict.matched))) := by
  refine ⟨?_, ?_, ?_, ?_⟩
  · exact List.Pairwise.map Prod.fst (fun a b h => h) (sortGolden_sorted golden_charts)
  · exact compare_keys_take file (sortGolden golden_charts) (groupRssp rssp_charts)
  · obtain ⟨n, hn⟩ := compare_keys_take file (sortGolden golden_charts) (groupRssp rssp_charts)
    rw [hn]
    exact (List.take_sublist n _).nodup (distinct_sortGolden golden_charts)
  · exact compare_verdicts_ok_iff file (sortGolden golden_charts) (groupRssp rssp_charts)

/-- Claim C4 counterexample: the baseline's dance-single group is absent from the
actual grouping, yet the fixture's verdict is a MISMATCH error (for the
lexicographically earlier dance-double group), not a MISSING CHART error. -/
theorem spec_C4_counterexample :
    check_file envMismatchAndMissing "f" "sm" "b" =
      .error (.mismatch "f" "dance-double" "easy" ["zz"] ["hx"]) ∧
    lookupGroup (groupRssp [⟨"dance-double", "easy", "zz"⟩]) ("dance-single", "easy") = none ∧
    ("dance-single", "easy") ∈
      (groupGolden [⟨"easy", "dance-double", "hx", none⟩,
        ⟨"easy", "dance-single", "hy", none⟩]).map Prod.fst := by
  decide

/-- Claim C4 amended: when some in-scope expected key is absent from the actual
grouping and every expected group that is present in the actual grouping
matches, the verdict is Fail with a MISSING CHART error (never a MISMATCH);
the counterexample shows that a mismatch in a lexicographically earlier group
otherwise pre-empts the missing-chart verdict. -/
theorem spec_C4_missing_chart (env : Env) (path extension baseline_dir : String)
    (cb raw cg jb : ByteSeq) (golden_charts : List GoldenChart)
    (rssp_charts : List RsspChart)
    (h₁ : env.readFile path = .ok cb) (h₂ : env.decodeAll cb = .ok raw)
    (h₃ : env.pathExists (goldenPathFor baseline_dir (env.md5hex raw)) = true)
    (h₄ : env.readFile (goldenPathFor baseline_dir (env.md5hex raw)) = .ok cg)
    (h₅ : env.decodeAll cg = .ok jb)
    (h₆ : env.parseGoldenJson jb = .ok golden_charts)
    (h₇ : env.computeAllHashes raw extension = .ok rssp_charts)
    (hall : ∀ p ∈ groupGolden golden_charts, ∀ a,
      lookupGroup (groupRssp rssp_charts) p.1 = some a → groupMatches p.2 a = true)
    (hex : ∃ p ∈ groupGolden golden_charts, lookupGroup (groupRssp rssp_charts) p.1 = none) :
    ∃ k : ChartGroupKey,
      check_file env path extension baseline_dir = .error (.missingChart path k.1 k.2) ∧
        lookupGroup (groupRssp rssp_charts) k = none ∧
        k ∈ (groupGolden golden_charts).map Prod.fst := by
  rw [check_file_eq_checkCharts env path extension baseline_dir cb raw cg jb
    golden_charts rssp_charts h₁ h₂ h₃ h₄ h₅ h₆ h₇]
  unfold checkCharts
  have hall' : ∀ p ∈ sortGolden golden_charts, ∀ a,
      lookupGroup (groupRssp rssp_charts) p.1 = some a → groupMatches p.2 a = true :=
    fun p hp => hall p ((sortGolden_perm golden_charts).mem_iff.mp hp)
  have hex' : ∃ p ∈ sortGolden golden_charts,
      lookupGroup (groupRssp rssp_charts) p.1 = none := by
    obtain ⟨p, hp, hpn⟩ := hex
    exact ⟨p, (sortGolden_perm golden_charts).mem_iff.mpr hp, hpn⟩
  obtain ⟨k, hres, hnone, hmem⟩ := compare_first_missing path (sortGolden golden_charts)
    (groupRssp rssp_charts) (distinct_sortGolden golden_charts) hall' hex'
  exact ⟨k, hres, hnone,
    (((sortGolden_perm golden_charts).map Prod.fst).mem_iff).mp hmem⟩

/-- Witness for C4's amended theorem: the baseline's dance-double group is
missing and the only present group matches, so the verdict is MISSING CHART. -/
theorem spec_C4_witness :
    ∃ k : ChartGroupKey,
      check_file envMissingOnly "f" "sm" "b" = .error (.missingChart "f" k.1 k.2) ∧
        lookupGroup (groupRssp [⟨"dance-single", "hard", "h1"⟩]) k = none ∧
        k ∈ (groupGolden [⟨"Hard", "dance-single", "h1", none⟩,
          ⟨"Hard", "dance-double", "h2", none⟩]).map Prod.fst :=
  spec_C4_missing_chart envMissingOnly "f" "sm" "b" [] [] [] []
    [⟨"Hard", "dance-single", "h1", none⟩, ⟨"Hard", "dance-double", "h2", none⟩]
    [⟨"dance-single", "hard", "h1"⟩]
    rfl rfl rfl rfl rfl rfl rfl (by decide) (by decide)

/-- Claim C5: a fixture whose derived digest has no baseline file at the resolved
sharded path fails hard with a MISSING BASELINE error whose message contains
the fixture path, the digest, and the expected baseline path. -/
theorem spec_C5_missing_baseline (env : Env) (path extension baseline_dir : String)
    (cb raw : ByteSeq)
    (h₁ : env.readFile path = .ok cb) (h₂ : env.decodeAll cb = .ok raw)
    (h₃ : env.pathExists (goldenPathFor baseline_dir (env.md5hex raw)) = false) :
    check_file env path extension baseline_dir =
      .error (.missingBaseline path (env.md5hex raw)
        (goldenPathFor baseline_dir (env.md5hex raw))) ∧
    (∃ s t, renderError (.missingBaseline path (env.md5hex raw)
        (goldenPathFor baseline_dir (env.md5hex raw))) = s ++ path ++ t) ∧
    (∃ s t, renderError (.missingBaseline path (env.md5hex raw)
        (goldenPathFor baseline_dir (env.md5hex raw))) = s ++ env.md5hex raw ++ t) ∧
    (∃ s t, renderError (.missingBaseline path (env.md5hex raw)
        (goldenPathFor baseline_dir (env.md5hex raw))) =
      s ++ goldenPathFor baseline_dir (env.md5hex raw) ++ t) := by
  refine ⟨?_, ?_, ?_, ?_⟩
  · simp [check_file, h₁, h₂, h₃]
  · refine ⟨"\n\nMISSING BASELINE\nFile: ",
      "\nHash: " ++ env.md5hex raw ++ "\nExpected baseline: " ++
        goldenPathFor baseline_dir (env.md5hex raw) ++ "\n", ?_⟩
    simp [renderError, String.append_assoc]
  · refine ⟨"\n\nMISSING BASELINE\nFile: " ++ path ++ "\nHash: ",
      "\nExpected baseline: " ++ goldenPathFor baseline_dir (env.md5hex raw) ++ "\n", ?_⟩
    simp [renderError, String.append_assoc]
  · refine ⟨"\n\nMISSING BASELINE\nFile: " ++ path ++ "\nHash: " ++ env.md5hex raw ++
      "\nExpected baseline: ", "\n", ?_⟩
    simp [renderError, String.append_assoc]

/-- Witness for C5 at a concrete environment with no baseline files. -/
theorem spec_C5_witness :
    check_file envNoBaseline "PackA/Song1/file.sm.zst" "sm" "tests/baseline" =
      .error (.missingBaseline "PackA/Song1/file.sm.zst" "ab12cd"
        "tests/baseline/ab/ab12cd.json.zst") := by
  have h := spec_C5_missing_baseline envNoBaseline "PackA/Song1/file.sm.zst" "sm"
    "tests/baseline" [] [] rfl rfl rfl
  exact h.1

theorem goldenStep_skip (m : GoldenMap) (g : GoldenChart)
    (h₁ : asciiLower g.step_type ≠ "dance-single")
    (h₂ : asciiLower g.step_type ≠ "dance-double") :
    goldenStep m g = m := by
  simp [goldenStep, h₁, h₂]

theorem rsspStep_skip (m : RsspMap) (c : RsspChart)
    (h₁ : asciiLower c.step_type ≠ "dance-single")
    (h₂ : asciiLower c.step_type ≠ "dance-double") :
    rsspStep m c = m := by
  simp [rsspStep, h₁, h₂]

theorem groupGolden_skip (l₁ l₂ : List GoldenChart) (g : GoldenChart)
    (h₁ : asciiLower g.step_type ≠ "dance-single")
    (h₂ : asciiLower g.step_type ≠ "dance-double") :
    groupGolden (l₁ ++ g :: l₂) = groupGolden (l₁ ++ l₂) := by
  unfold groupGolden
  rw [List.foldl_append, List.foldl_append, List.foldl_cons, goldenStep_skip _ g h₁ h₂]

theorem groupRssp_skip (l₁ l₂ : List RsspChart) (c : RsspChart)
    (h₁ : asciiLower c.step_type ≠ "dance-single")
    (h₂ : asciiLower c.step_type ≠ "dance-double") :
    groupRssp (l₁ ++ c :: l₂) = groupRssp (l₁ ++ l₂) := by
  unfold groupRssp
  rw [List.foldl_append, List.foldl_append, List.foldl_cons, rsspStep_skip _ c h₁ h₂]

/-- Claim C6: entries whose case-folded step_type is outside the allow-list
(dance-single, dance-double) are excluded from both groupings, so inserting
such an entry anywhere on either side changes neither grouping nor the
fixture's comparison verdict. -/
theorem spec_C6_out_of_scope (file : String) (golden₁ golden₂ : List GoldenChart)
    (rssp₁ rssp₂ : List RsspChart) (g : GoldenChart) (c : RsspChart)
    (hg₁ : asciiLower g.step_type ≠ "dance-single")
    (hg₂ : asciiLower g.step_type ≠ "dance-double")
    (hc₁ : asciiLower c.step_type ≠ "dance-single")
    (hc₂ : asciiLower c.step_type ≠ "dance-double") :
    groupGolden (golden₁ ++ g :: golden₂) = groupGolden (golden₁ ++ golden₂) ∧
    groupRssp (rssp₁ ++ c :: rssp₂) = groupRssp (rssp₁ ++ rssp₂) ∧
    checkCharts file (golden₁ ++ g :: golden₂) (rssp₁ ++ c :: rssp₂) =
      checkCharts file (golden₁ ++ golden₂) (rssp₁ ++ rssp₂) := by
  have hgold := groupGolden_skip golden₁ golden₂ g hg₁ hg₂
  have hrssp := groupRssp_skip rssp₁ rssp₂ c hc₁ hc₂
  refine ⟨hgold, hrssp, ?_⟩
  unfold checkCharts sortGolden
  rw [hgold, hrssp]

/-- Witness for C6: adding a pump-single entry on each side leaves the
verdict unchanged. -/
theorem spec_C6_witness :
    checkCharts "f"
        ([⟨"easy", "dance-single", "h", none⟩] ++ ⟨"easy", "pump-single", "x", none⟩ :: [])
        ([⟨"dance-single", "easy", "h"⟩] ++ ⟨"pump-single", "easy", "y"⟩ :: []) =
      checkCharts "f" ([⟨"easy", "dance-single", "h", none⟩] ++ [])
        ([⟨"dance-single", "easy", "h"⟩] ++ []) :=
  (spec_C6_out_of_scope "f" [⟨"easy", "dance-single", "h", none⟩] []
    [⟨"dance-single", "easy", "h"⟩] [] ⟨"easy", "pump-single", "x", none⟩
    ⟨"pump-single", "easy", "y"⟩ (by decide) (by decide) (by decide) (by decide)).2.2

theorem runTests_foldl (env : Env) (baseline_dir : String) :
    ∀ (tests : List TestCase) (acc : RunState),
      tests.foldl (runStep env baseline_dir) acc =
        ⟨acc.numPassed + tests.countP (fun t =>
            match check_file env t.path t.extension baseline_dir with
            | .ok _ => true
            | .error _ => false),
          acc.numFailed + (tests.filterMap (fun t =>
            match check_file env t.path t.extension baseline_dir with
            | .ok _ => none
            | .error e => some (⟨t.name, (renderError e).trim⟩ : Failure))).length,
          acc.failures ++ tests.filterMap (fun t =>
            match check_file env t.path t.extension baseline_dir with
            | .ok _ => none
            | .error e => some ⟨t.name, (renderError e).trim⟩)⟩
  | [], acc => by simp
  | t :: ts, acc => by
    cases hc : check_file env t.path t.extension baseline_dir with
    | ok u =>
      cases u
      rw [List.foldl_cons]
      have hstep : runStep env baseline_dir acc t =
          { acc with numPassed := acc.numPassed + 1 } := by
        simp [runStep, hc]
      rw [hstep, runTests_foldl env baseline_dir ts _]
      simp [List.countP_cons, List.filterMap_cons, hc]
      omega
    | error e =>
      rw [List.foldl_cons]
      have hstep : runStep env baseline_dir acc t =
          { acc with
            numFailed := acc.numFailed + 1,
            failures := acc.failures ++ [⟨t.name, (renderError e).trim⟩] } := by
        simp [runStep, hc]
      rw [hstep, runTests_foldl env baseline_dir ts _]
      simp [List.countP_cons, List.filterMap_cons, hc]
      omega

theorem countP_ok_add_failures (env : Env) (baseline_dir : String) :
    ∀ tests : List TestCase,
      tests.countP (fun t =>
          match check_file env t.path t.extension baseline_dir with
          | .ok _ => true
          | .error _ => false) +
        (tests.filterMap (fun t =>
          match check_file env t.path t.extension baseline_dir with
          | .ok _ => none
          | .error e => some (⟨t.name, (renderError e).trim⟩ : Failure))).length =
      tests.length
  | [] => rfl
  | t :: ts => by
    cases hc : check_file env t.path t.extension baseline_dir with
    | ok u =>
      cases u
      simp [List.countP_cons, List.filterMap_cons, hc]
      have := countP_ok_add_failures env baseline_dir ts
      omega
    | error e =>
      simp [List.countP_cons, List.filterMap_cons, hc]
      have := countP_ok_add_failures env baseline_dir ts
      omega

/-- Claim C7: the run loop never aborts: every fixture in the list is checked, each
passing fixture increments the pass count, each failing fixture contributes
exactly one recorded failure attributed to its own name, and pass and fail
counts always sum to the number of fixtures. -/
theorem spec_C7_runner_aggregates (env : Env) (baseline_dir : String)
    (tests : List TestCase) :
    (runTests env baseline_dir tests).failures = tests.filterMap (fun t =>
        match check_file env t.path t.extension baseline_dir with
        | .ok _ => none
        | .error e => some ⟨t.name, (renderError e).trim⟩) ∧
    (runTests env baseline_dir tests).numPassed = tests.countP (fun t =>
        match check_file env t.path t.extension baseline_dir with
        | .ok _ => true
        | .error _ => false) ∧
    (runTests env baseline_dir tests).numFailed =
      ((runTests env baseline_dir tests).failures).length ∧
    (runTests env baseline_dir tests).numPassed +
      (runTests env baseline_dir tests).numFailed = tests.length := by
  have h := runTests_foldl env baseline_dir tests ⟨0, 0, []⟩
  have hsum := countP_ok_add_failures env baseline_dir tests
  unfold runTests
  rw [h]
  simp
  omega

/-- Two sorted lists that are permutations of each other agree, provided the
order is antisymmetric on the members of the first. -/
theorem sorted_perm_eq {α : Type} (le : α → α → Prop) :
    ∀ (l₁ l₂ : List α), l₁.Perm l₂ → l₁.Sorted le → l₂.Sorted le →
      (∀ a ∈ l₁, ∀ b ∈ l₁, le a b → le b a → a = b) → l₁ = l₂
  | [], l₂, hp, _, _, _ => (hp.symm.eq_nil).symm
  | a :: t₁, l₂, hp, hs₁, hs₂, ha => by
    cases l₂ with
    | nil => exact absurd hp.eq_nil (by simp)
    | cons b t₂ =>
      have hamem : a ∈ b :: t₂ := hp.subset (List.mem_cons_self a t₁)
      have hbmem : b ∈ a :: t₁ := hp.symm.subset (List.mem_cons_self b t₂)
      obtain ⟨hs₁h, hs₁t⟩ := List.sorted_cons.mp hs₁
      obtain ⟨hs₂h, hs₂t⟩ := List.sorted_cons.mp hs₂
      have hab : a = b := by
        rcases List.mem_cons.mp hamem with rfl | hat₂
        · rfl
        · rcases List.mem_cons.mp hbmem with rfl | hbt₁
          · rfl
          · exact ha a (List.mem_cons_self _ _) b (List.mem_cons_of_mem _ hbt₁)
              (hs₁h b hbt₁) (hs₂h a hat₂)
      subst hab
      have hp' : t₁.Perm t₂ := (List.perm_cons a).mp hp
      have ha' : ∀ x ∈ t₁, ∀ y ∈ t₁, le x y → le y x → x = y :=
        fun x hx y hy => ha x (List.mem_cons_of_mem a hx) y (List.mem_cons_of_mem a hy)
      rw [sorted_perm_eq le t₁ t₂ hp' hs₁t hs₂t ha']

/-- Claim C8: discovery is order-independent and deterministic: over a root whose
eligible entries have injective display names, any permutation of the
filesystem enumeration yields the identical sorted fixture list, the result
is sorted by name, and it contains exactly the regular files with outer
extension zst and lower-cased inner extension sm or ssc. -/
theorem spec_C8_discovery (packs_dir : String) (entries entries' : List WalkEntry)
    (hperm : entries.Perm entries')
    (hinj : ∀ a ∈ discoverCandidates packs_dir entries,
      ∀ b ∈ discoverCandidates packs_dir entries, a.name = b.name → a = b) :
    discover packs_dir entries = discover packs_dir entries' ∧
    (discover packs_dir entries).Sorted NameLe ∧
    (∀ t, t ∈ discover packs_dir entries ↔
      ∃ e ∈ entries, toTestCase packs_dir e = some t) := by
  have hsorted : ∀ es : List WalkEntry, (discover packs_dir es).Sorted NameLe :=
    fun es => List.sorted_insertionSort NameLe (discoverCandidates packs_dir es)
  have hdp : ∀ es : List WalkEntry,
      (discover packs_dir es).Perm (discoverCandidates packs_dir es) :=
    fun es => List.perm_insertionSort NameLe (discoverCandidates packs_dir es)
  refine ⟨?_, hsorted entries, ?_⟩
  · have hpc : (discoverCandidates packs_dir entries).Perm
        (discoverCandidates packs_dir entries') := hperm.filterMap _
    have hp : (discover packs_dir entries).Perm (discover packs_dir entries') :=
      ((hdp entries).trans hpc).trans (hdp entries').symm
    apply sorted_perm_eq NameLe _ _ hp (hsorted entries) (hsorted entries')
    intro a hamem b hbmem hab hba
    exact hinj a ((hdp entries).subset hamem) b ((hdp entries).subset hbmem)
      (strLe_antisymm hab hba)
  · intro t
    rw [(hdp entries).mem_iff]
    unfold discoverCandidates
    exact List.mem_filterMap

/-- Witness for C8: two enumerations of the same two fixtures in opposite
orders produce the identical sorted list. -/
theorem spec_C8_witness :
    discover "packs" [⟨"packs/b/f.sm.zst", true⟩, ⟨"packs/a/g.ssc.zst", true⟩] =
      discover "packs" [⟨"packs/a/g.ssc.zst", true⟩, ⟨"packs/b/f.sm.zst", true⟩] :=
  (spec_C8_discovery "packs" [⟨"packs/b/f.sm.zst", true⟩, ⟨"packs/a/g.ssc.zst", true⟩]
    [⟨"packs/a/g.ssc.zst", true⟩, ⟨"packs/b/f.sm.zst", true⟩]
    (List.Perm.swap _ _ _) (by decide)).1

/-- Claim C9: the exit status is 0 when `tests/packs` is missing (with no fixtures
executed), 0 when every executed fixture passed, and 101 when at least one
fixture failed. -/
theorem spec_C9_exit_codes (manifest_dir : String) (w : World) :
    (w.packsExists = false → mainRun manifest_dir w = ⟨0, 0⟩) ∧
    (w.packsExists = true → w.args.list = false →
      (((mainRun manifest_dir w).exitCode = 0 ↔
        (runTests w.env (resolve_baseline_dir w.env (pathJoin manifest_dir "tests/baseline"))
          (applyFilters w.args
            (discover (pathJoin manifest_dir "tests/packs") w.walkEntries))).numFailed = 0) ∧
      ((runTests w.env (resolve_baseline_dir w.env (pathJoin manifest_dir "tests/baseline"))
          (applyFilters w.args
            (discover (pathJoin manifest_dir "tests/packs") w.walkEntries))).numFailed ≠ 0 →
        (mainRun manifest_dir w).exitCode = 101) ∧
      ((runTests w.env (resolve_baseline_dir w.env (pathJoin manifest_dir "tests/baseline"))
          (applyFilters w.args
            (discover (pathJoin manifest_dir "tests/packs") w.walkEntries))).numFailed = 0 ↔
        ∀ t ∈ applyFilters w.args
            (discover (pathJoin manifest_dir "tests/packs") w.walkEntries),
          check_file w.env t.path t.extension
            (resolve_baseline_dir w.env (pathJoin manifest_dir "tests/baseline")) =
              .ok ()))) := by
  constructor
  · intro h
    simp [mainRun, h]
  · intro hp hl
    have hmain : mainRun manifest_dir w =
        if (runTests w.env (resolve_baseline_dir w.env (pathJoin manifest_dir "tests/baseline"))
            (applyFilters w.args
              (discover (pathJoin manifest_dir "tests/packs") w.walkEntries))).numFailed = 0
        then ⟨0, (applyFilters w.args
            (discover (pathJoin manifest_dir "tests/packs") w.walkEntries)).length⟩
        else ⟨101, (applyFilters w.args
            (discover (pathJoin manifest_dir "tests/packs") w.walkEntries)).length⟩ := by
      simp [mainRun, hp, hl]
    refine ⟨?_, ?_, ?_⟩
    · by_cases hr : (runTests w.env
          (resolve_baseline_dir w.env (pathJoin manifest_dir "tests/baseline"))
          (applyFilters w.args
            (discover (pathJoin manifest_dir "tests/packs") w.walkEntries))).numFailed = 0 <;>
        simp [hmain, hr]
    · intro hr
      simp [hmain, hr]
    · have h := runTests_foldl w.env
        (resolve_baseline_dir w.env (pathJoin manifest_dir "tests/baseline"))
        (applyFilters w.args (discover (pathJoin manifest_dir "tests/packs") w.walkEntries))
        ⟨0, 0, []⟩
      unfold runTests
      rw [h]
      simp only [Nat.zero_add, List.length_eq_zero, List.filterMap_eq_nil_iff]
      constructor
      · intro hall t ht
        have := hall t ht
        revert this
        cases hc : check_file w.env t.path t.extension
            (resolve_baseline_dir w.env (pathJoin manifest_dir "tests/baseline")) with
        | ok u => cases u; simp
        | error e => simp
      · intro hall t ht
        rw [hall t ht]

/-- Witness for C9: a missing packs directory exits 0 with nothing executed,
a passing run exits 0, and a failing run exits 101. -/
theorem spec_C9_witness :
    mainRun "m" { worldOnePass with packsExists := false } = ⟨0, 0⟩ ∧
    (mainRun "m" worldOnePass).exitCode = 0 ∧
    (mainRun "m" worldOneFail).exitCode = 101 := by
  refine ⟨(spec_C9_exit_codes "m" _).1 rfl, ?_, ?_⟩
  · exact ((spec_C9_exit_codes "m" worldOnePass).2 rfl rfl).1.mpr (by decide)
  · exact ((spec_C9_exit_codes "m" worldOneFail).2 rfl rfl).2.1 (by decide)

end HashParity
